import Mathlib

/-!
Verification development for the mp3detective audio metadata tagger
(single source file `app.py`, class `AudioMetadataGenerator`).

The Python source is shallowly embedded below.  JSON values decoded from
the inference backend are modelled by `JValue`; Python truthiness,
`str()` and `==` are modelled by `pyTruthy`, `pyStr` and `pyEq`; the
external `json.loads` capability is passed explicitly as a function
argument; tag containers are modelled as explicit record / association
list states.  Filenames are processed as `List Char`, mirroring the
regular expressions of `clean_filename` step by step.
-/

set_option autoImplicit false

/-- JSON values as decoded by `json.loads` (numbers restricted to the
integers actually relevant to year handling). -/
inductive JValue where
  | null : JValue
  | bool : Bool → JValue
  | num : Int → JValue
  | str : String → JValue
  | arr : List JValue → JValue
  | obj : List (String × JValue) → JValue

/-- Mapping shape of a decoded JSON object, as used for metadata records. -/
abbrev JsonObj := List (String × JValue)

/-- First binding of a key in a decoded object; Python `d[k]` / `k in d`. -/
def jlookup : JsonObj → String → Option JValue
  | [], _ => none
  | (k, v) :: rest, key => if k = key then some v else jlookup rest key

/-- Python truthiness of a JSON value (`if metadata.get(...)`). -/
def pyTruthy : JValue → Bool
  | .null => false
  | .bool b => b
  | .num n => n != 0
  | .str s => !s.isEmpty
  | .arr xs => !xs.isEmpty
  | .obj xs => !xs.isEmpty

/-- A single-quote character, used by the Python `repr` of strings. -/
def squote : String := String.singleton (Char.ofNat 39)

mutual

/-- Python `str()` of a JSON value: identity on strings, `repr` on
containers, `None` / `True` / `False` on null and booleans. -/
def pyStr : JValue → String
  | .null => "None"
  | .bool true => "True"
  | .bool false => "False"
  | .num n => toString n
  | .str s => s
  | .arr xs => "[" ++ pyReprList xs ++ "]"
  | .obj xs => "\x7b" ++ pyReprObj xs ++ "\x7d"

/-- Python `repr()` of a JSON value (strings get quoted; assumes the
string needs no escaping, which holds for every input used here). -/
def pyRepr : JValue → String
  | .null => "None"
  | .bool true => "True"
  | .bool false => "False"
  | .num n => toString n
  | .str s => squote ++ s ++ squote
  | .arr xs => "[" ++ pyReprList xs ++ "]"
  | .obj xs => "\x7b" ++ pyReprObj xs ++ "\x7d"

/-- Comma-joined `repr`s of list elements. -/
def pyReprList : List JValue → String
  | [] => ""
  | [x] => pyRepr x
  | x :: y :: xs => pyRepr x ++ ", " ++ pyReprList (y :: xs)

/-- Comma-joined `repr`s of dict entries. -/
def pyReprObj : List (String × JValue) → String
  | [] => ""
  | [(k, v)] => squote ++ k ++ squote ++ ": " ++ pyRepr v
  | (k, v) :: e :: xs => squote ++ k ++ squote ++ ": " ++ pyRepr v ++ ", " ++ pyReprObj (e :: xs)

end

mutual

/-- Structural equality of JSON values (Python `==` on same-typed values). -/
def jeq : JValue → JValue → Bool
  | .null, .null => true
  | .bool a, .bool b => a == b
  | .num a, .num b => a == b
  | .str a, .str b => a == b
  | .arr a, .arr b => jeqList a b
  | .obj a, .obj b => jeqObj a b
  | _, _ => false

/-- Elementwise equality of JSON arrays. -/
def jeqList : List JValue → List JValue → Bool
  | [], [] => true
  | a :: as, b :: bs => jeq a b && jeqList as bs
  | _, _ => false

/-- Entrywise equality of JSON objects. -/
def jeqObj : List (String × JValue) → List (String × JValue) → Bool
  | [], [] => true
  | (k, a) :: as, (l, b) :: bs => k == l && jeq a b && jeqObj as bs
  | _, _ => false

end

/-- Numeric view used by Python `==` (booleans equal their 0/1 value). -/
def numVal : JValue → Option Int
  | .bool b => some (if b then 1 else 0)
  | .num n => some n
  | _ => none

/-- Python `==` between JSON values: numeric comparison when both sides
are numeric (bool counts as 0/1), structural equality otherwise, and
`False` across types. -/
def pyEq (a b : JValue) : Bool :=
  match numVal a, numVal b with
  | some x, some y => x == y
  | none, none => jeq a b
  | _, _ => false

/-- Python `str.isdigit()` restricted to ASCII digits: true on a
non-empty all-digit string. -/
def isDigitStr (s : String) : Bool := !s.isEmpty && s.data.all (fun c => c.isDigit)

/-- Python `\s` whitespace class (ASCII part). -/
def isPySpace (c : Char) : Bool :=
  c = ' ' || c = '\t' || c = '\n' || c = '\r' || c = '\x0b' || c = '\x0c'

/-- Separator class `[\s_\-\.]` of the leading-pattern regexes. -/
def isSepCh (c : Char) : Bool := isPySpace c || c = '_' || c = '-' || c = '.'

/-- Character class `[_\.]` collapsed to spaces by `clean_filename`. -/
def isUD (c : Char) : Bool := c = '_' || c = '.'

/-- Index of the last occurrence of a character. -/
def lastIdx (c : Char) : List Char → Option Nat
  | [] => none
  | a :: as =>
    match lastIdx c as with
    | some i => some (i + 1)
    | none => if a = c then some 0 else none

/-- `os.path.splitext(filename)[0]`: drop the extension after the last
dot of the basename, unless every character before that dot (within the
basename) is itself a dot. -/
def splitextRootList (l : List Char) : List Char :=
  match lastIdx '.' l with
  | none => l
  | some di =>
    let start := match lastIdx '/' l with | none => 0 | some si => si + 1
    if start ≤ di && ((l.drop start).take (di - start)).any (fun c => c ≠ '.') then
      l.take di
    else l

/-- `re.sub(r'^\d+[\s_\-\.]+', '', name)`: strip a leading digit run
followed by a non-empty separator run (at most one match, anchored). -/
def stripLeadNum (l : List Char) : List Char :=
  let ds := l.takeWhile (fun c => c.isDigit)
  if ds.isEmpty then l
  else
    let rest := l.dropWhile (fun c => c.isDigit)
    if (rest.takeWhile isSepCh).isEmpty then l else rest.dropWhile isSepCh

/-- Suffix after the first `]`, failing if a newline occurs first
(the lazy `.*?` of the bracket regex cannot cross a newline). -/
def afterRBracket : List Char → Option (List Char)
  | [] => none
  | c :: cs => if c = ']' then some cs else if c = '\n' then none else afterRBracket cs

/-- `re.sub(r'^\[.*?\][\s_\-\.]*', '', name)`: strip a leading
bracketed tag and any separator run after it (anchored, one match). -/
def stripBracket (l : List Char) : List Char :=
  match l with
  | '[' :: rest =>
    match afterRBracket rest with
    | some after => after.dropWhile isSepCh
    | none => l
  | _ => l

/-- Replace each maximal run of `p`-characters by the single character
`r`; the flag records whether we are inside a run.  Models
`re.sub(r'[_\.]+', ' ', name)` and `re.sub(r'\s+', ' ', name)`. -/
def collapseRuns (p : Char → Bool) (r : Char) : Bool → List Char → List Char
  | _, [] => []
  | inRun, c :: cs =>
    if p c then
      if inRun then collapseRuns p r true cs else r :: collapseRuns p r true cs
    else c :: collapseRuns p r false cs

/-- Drop a maximal trailing run of `p`-characters. -/
def dropTrail (p : Char → Bool) : List Char → List Char
  | [] => []
  | a :: as =>
    match dropTrail p as with
    | [] => if p a then [] else [a]
    | bs => a :: bs

/-- Python `str.strip()`: drop leading and trailing whitespace. -/
def pyStrip (p : Char → Bool) (l : List Char) : List Char := dropTrail p (l.dropWhile p)

/-- `clean_filename` on the character list of a filename: strip the
extension, a leading track number, a leading bracketed tag; collapse
`_`/`.` runs to spaces; collapse whitespace runs and trim. -/
def cleanList (l : List Char) : List Char :=
  pyStrip isPySpace
    (collapseRuns isPySpace ' ' false
      (collapseRuns isUD ' ' false
        (stripBracket (stripLeadNum (splitextRootList l)))))

/-- `AudioMetadataGenerator.clean_filename` (app.py lines 109-127). -/
def clean_filename (s : String) : String := String.mk (cleanList s.data)

/-- `AudioMetadataGenerator.get_audio_files` (app.py lines 93-107): MP3
glob results concatenated with Opus glob results. -/
def get_audio_files (mp3Files opusFiles : List String) : List String :=
  mp3Files ++ opusFiles

/-- Lookup of a key whose value passed the truthiness gate
(`if metadata.get(k):`). -/
def getTruthy (m : JsonObj) (k : String) : Option JValue :=
  match jlookup m k with
  | some v => if pyTruthy v then some v else none
  | none => none

/-- Truthiness of an optional string tag field (eyed3 returns `None`
for an unset field; an empty string is also falsy). -/
def otruthy : Option String → Bool
  | none => false
  | some s => !s.isEmpty

/-- ID3 tag state of an MP3 file, as read and written through eyed3.
`comment` models the single default-description comment slot used by
`tag.comments.set(...)` (a second `set` call replaces the first). -/
structure Mp3Tag where
  title : Option String
  artist : Option String
  album : Option String
  recording_date : Option String
  composer : Option String
  genre : Option String
  comment : Option String
deriving DecidableEq

/-- A freshly initialized tag (`audiofile.initTag(version=(2, 3, 0))`). -/
def emptyMp3Tag : Mp3Tag := ⟨none, none, none, none, none, none, none⟩

/-- `if metadata.get("title"): audiofile.tag.title = str(metadata["title"])`. -/
def mp3SetTitle (m : JsonObj) (t : Mp3Tag) : Mp3Tag :=
  match getTruthy m "title" with
  | some v => { t with title := some (pyStr v) }
  | none => t

/-- `if metadata.get("artists"): audiofile.tag.artist = str(metadata["artists"])`. -/
def mp3SetArtist (m : JsonObj) (t : Mp3Tag) : Mp3Tag :=
  match getTruthy m "artists" with
  | some v => { t with artist := some (pyStr v) }
  | none => t

/-- `if metadata.get("album"): audiofile.tag.album = str(metadata["album"])`. -/
def mp3SetAlbum (m : JsonObj) (t : Mp3Tag) : Mp3Tag :=
  match getTruthy m "album" with
  | some v => { t with album := some (pyStr v) }
  | none => t

/-- Year handling (app.py lines 338-344): coerce to string, write only
when all digits.  The `except (ValueError, TypeError)` around the
coercion is unreachable since `str()` of a decoded JSON value cannot
raise; in particular the non-digit case is silent. -/
def mp3SetYear (m : JsonObj) (t : Mp3Tag) : Mp3Tag :=
  match getTruthy m "year" with
  | some v => if isDigitStr (pyStr v) then { t with recording_date := some (pyStr v) } else t
  | none => t

/-- `if metadata.get("composer"): audiofile.tag.composer = str(...)`. -/
def mp3SetComposer (m : JsonObj) (t : Mp3Tag) : Mp3Tag :=
  match getTruthy m "composer" with
  | some v => { t with composer := some (pyStr v) }
  | none => t

/-- `if metadata.get("language"): audiofile.tag.comments.set(f"Language: ...")`. -/
def mp3SetLanguage (m : JsonObj) (t : Mp3Tag) : Mp3Tag :=
  match getTruthy m "language" with
  | some v => { t with comment := some ("Language: " ++ pyStr v) }
  | none => t

/-- Genre handling (app.py lines 352-357): set the genre field, or fall
back to a synthesized comment when eyed3 rejects the value
(`genreFails`). -/
def mp3SetGenre (genreFails : Bool) (m : JsonObj) (t : Mp3Tag) : Mp3Tag :=
  match getTruthy m "genre" with
  | some v =>
    if genreFails then { t with comment := some ("Genre: " ++ pyStr v) }
    else { t with genre := some (pyStr v) }
  | none => t

/-- Field-by-field tag application of `update_mp3_metadata`
(app.py lines 328-357), in source order. -/
def applyMp3Fields (t : Mp3Tag) (m : JsonObj) (genreFails : Bool) : Mp3Tag :=
  mp3SetGenre genreFails m
    (mp3SetLanguage m (mp3SetComposer m (mp3SetYear m (mp3SetAlbum m (mp3SetArtist m (mp3SetTitle m t))))))

/-- Result of `eyed3.load` on an MP3 file: load failure (returns `None`
or raises), a file without an ID3 tag, or a file with tag state `t`. -/
inductive TagFile where
  | unreadable : TagFile
  | noTag : TagFile
  | tagged : Mp3Tag → TagFile
deriving DecidableEq

/-- Observable outcome of one MP3 write attempt: the returned boolean,
how often `stats["skipped"]` was incremented, and the state of the file
at the output path (`none` when no copy was made). -/
structure Mp3WriteOutcome where
  ret : Bool
  skippedDelta : Nat
  output : Option TagFile
deriving DecidableEq

/-- `AudioMetadataGenerator.update_mp3_metadata` (app.py lines 291-366).
`confirmOk` is the result of `confirm_update()`; `saveOk` tells whether
`tag.save` succeeds (on failure the caught exception yields `False` and
the output copy keeps the tags it was copied with); the copy at the
output path has the same `TagFile` state as the source. -/
def update_mp3_metadata (overwrite confirmOk genreFails saveOk : Bool)
    (src : TagFile) (m : JsonObj) : Mp3WriteOutcome :=
  if !confirmOk then ⟨false, 1, none⟩
  else
    match src with
    | .unreadable => ⟨false, 0, some .unreadable⟩
    | .noTag =>
      let t := applyMp3Fields emptyMp3Tag m genreFails
      if saveOk then ⟨true, 0, some (.tagged t)⟩ else ⟨false, 0, some .noTag⟩
    | .tagged t0 =>
      if !overwrite && (otruthy t0.title || otruthy t0.artist) then
        ⟨false, 1, some (.tagged t0)⟩
      else
        let t := applyMp3Fields t0 m genreFails
        if saveOk then ⟨true, 0, some (.tagged t)⟩ else ⟨false, 0, some (.tagged t0)⟩

/-- Vorbis comment block of an Opus file: multi-valued string tags. -/
abbrev VorbisTags := List (String × List String)

/-- First binding of a tag key (`audiofile.get(key)`). -/
def vget : VorbisTags → String → Option (List String)
  | [], _ => none
  | (k, v) :: rest, key => if k = key then some v else vget rest key

/-- Truthiness of `audiofile.get(key)`: present with a non-empty value
list. -/
def vtruthy (c : VorbisTags) (k : String) : Bool :=
  match vget c k with
  | some (_ :: _) => true
  | _ => false

/-- `audiofile[key] = value`: replace all values bound to the key
(new binding appended at the end). -/
def vset : VorbisTags → String → List String → VorbisTags
  | [], k, vs => [(k, vs)]
  | (k0, v0) :: rest, k, vs =>
    if k0 = k then vset rest k vs else (k0, v0) :: vset rest k vs

/-- One conditional Vorbis field assignment
(`if metadata.get(jsonKey): audiofile[tagKey] = str(...)`). -/
def opusSetField (jsonKey tagKey : String) (m : JsonObj) (c : VorbisTags) : VorbisTags :=
  match getTruthy m jsonKey with
  | some v => vset c tagKey [pyStr v]
  | none => c

/-- Opus year handling (app.py lines 435-441), same digit gate as MP3. -/
def opusSetYear (m : JsonObj) (c : VorbisTags) : VorbisTags :=
  match getTruthy m "year" with
  | some v => if isDigitStr (pyStr v) then vset c "DATE" [pyStr v] else c
  | none => c

/-- Field-by-field tag application of `update_opus_metadata`
(app.py lines 425-450), in source order; no genre fallback. -/
def applyOpusFields (c : VorbisTags) (m : JsonObj) : VorbisTags :=
  opusSetField "genre" "GENRE" m
    (opusSetField "language" "LANGUAGE" m
      (opusSetField "composer" "COMPOSER" m
        (opusSetYear m
          (opusSetField "album" "ALBUM" m
            (opusSetField "artists" "ARTIST" m
              (opusSetField "title" "TITLE" m c))))))

/-- Result of `OggOpus(path)`: load failure (raises) or the comment
block. -/
inductive OpusFile where
  | unreadable : OpusFile
  | tags : VorbisTags → OpusFile
deriving DecidableEq

/-- Observable outcome of one Opus write attempt. -/
structure OpusWriteOutcome where
  ret : Bool
  skippedDelta : Nat
  output : Option OpusFile
deriving DecidableEq

/-- `AudioMetadataGenerator.update_opus_metadata` (app.py lines 390-459). -/
def update_opus_metadata (overwrite confirmOk saveOk : Bool)
    (src : OpusFile) (m : JsonObj) : OpusWriteOutcome :=
  if !confirmOk then ⟨false, 1, none⟩
  else
    match src with
    | .unreadable => ⟨false, 0, some .unreadable⟩
    | .tags c0 =>
      if !overwrite && (vtruthy c0 "TITLE" || vtruthy c0 "ARTIST") then
        ⟨false, 1, some (.tags c0)⟩
      else
        let c := applyOpusFields c0 m
        if saveOk then ⟨true, 0, some (.tags c)⟩ else ⟨false, 0, some (.tags c0)⟩

/-- `AudioMetadataGenerator.get_mp3_existing_metadata` (app.py lines
272-289): any load failure or missing tag yields the empty mapping; the
enclosing `try/except` makes the function total. -/
def get_mp3_existing_metadata : TagFile → JsonObj
  | .unreadable => []
  | .noTag => []
  | .tagged t =>
    [("title", .str (t.title.getD "")),
     ("artist", .str (t.artist.getD "")),
     ("album", .str (t.album.getD "")),
     ("year", .str (t.recording_date.getD "")),
     ("composer", .str (t.composer.getD "")),
     ("genre", .str (t.genre.getD "")),
     ("comments", .arr (match t.comment with | some c => [.str c] | none => []))]

/-- First value of a tag key or the empty string
(`audiofile.get(k, [""])[0] if audiofile.get(k) else ""`). -/
def vfirst (c : VorbisTags) (k : String) : String :=
  match vget c k with
  | some (v :: _) => v
  | _ => ""

/-- `AudioMetadataGenerator.get_opus_existing_metadata` (app.py lines
368-388): a load failure yields the empty mapping; total as above. -/
def get_opus_existing_metadata : OpusFile → JsonObj
  | .unreadable => []
  | .tags c =>
    [("title", .str (vfirst c "TITLE")),
     ("artist", .str (vfirst c "ARTIST")),
     ("album", .str (vfirst c "ALBUM")),
     ("year", .str (vfirst c "DATE")),
     ("composer", .str (vfirst c "COMPOSER")),
     ("genre", .str (vfirst c "GENRE")),
     ("language", .str (vfirst c "LANGUAGE"))]

/-- Opening brace character. -/
def lbraceCh : Char := Char.ofNat 123

/-- Closing brace character. -/
def rbraceCh : Char := Char.ofNat 125

/-- Index of the first occurrence of a character. -/
def firstIdx (c : Char) : List Char → Option Nat
  | [] => none
  | a :: as => if a = c then some 0 else (firstIdx c as).map (· + 1)

/-- `re.search(r'\x7b.*\x7d', text, re.DOTALL)`: the greedy dot-all
scan matches from the first opening brace to the last closing brace,
when the latter comes after the former. -/
def braceSpanList (l : List Char) : Option (List Char) :=
  match firstIdx lbraceCh l, lastIdx rbraceCh l with
  | some i, some j => if i < j then some ((l.drop i).take (j - i + 1)) else none
  | _, _ => none

/-- Outcome of the HTTP call to the inference backend, covering
`requests.post`, `raise_for_status` and `response.json()`: either a
`RequestException` with message `msg` (connection refused, timeout,
non-2xx status, non-JSON body) or the decoded response body. -/
inductive HttpOutcome where
  | raises : String → HttpOutcome
  | returns : JValue → HttpOutcome

/-- Fallback record of the inner JSON-parse failure paths
(app.py line 201). -/
def parseFallback (song : String) : JValue :=
  .obj [("title", .str song), ("error", .str "Failed to parse response")]

/-- Lookup inside a JSON value when it is an object. -/
def jget (v : JValue) (k : String) : Option JValue :=
  match v with
  | .obj fs => jlookup fs k
  | _ => none

/-- `AudioMetadataGenerator.get_metadata_from_ollama` (app.py lines
129-208).  `loads` is the `json.loads` capability (`none` = parse
failure).  Every exception is caught inside the source function, so the
embedding is a total function.  A response body that is not an object,
or whose `response` entry is not a string, raises `TypeError` resp.
`AttributeError` inside the `try`, caught by the broad handler which
stores `str(e)`; those messages are modelled by the exception class
name. -/
def get_metadata_from_ollama (loads : String → Option JValue)
    (song_name : String) (outcome : HttpOutcome) : JValue :=
  match outcome with
  | .raises msg => .obj [("error", .str msg), ("title", .str song_name)]
  | .returns result =>
    match result with
    | .obj fields =>
      match jlookup fields "response" with
      | none => .obj [("title", .str song_name), ("error", .str "Invalid response format")]
      | some (.str rtext) =>
        let t := String.mk (pyStrip isPySpace rtext.data)
        if t.data.head? = some lbraceCh && t.data.getLast? = some rbraceCh then
          match loads t with
          | some meta => meta
          | none => parseFallback song_name
        else
          match braceSpanList t.data with
          | some span =>
            match loads (String.mk span) with
            | some meta => meta
            | none => parseFallback song_name
          | none => parseFallback song_name
      | some _ => .obj [("error", .str "AttributeError"), ("title", .str song_name)]
    | _ => .obj [("error", .str "TypeError"), ("title", .str song_name)]

/-- `metadata.get(k, "")`. -/
def mget (m : JsonObj) (k : String) : JValue := (jlookup m k).getD (.str "")

/-- The seven (old, new) display pairs built by
`display_metadata_comparison` (app.py lines 216-225); the new year value
is stringified with `str(...)` before comparison. -/
def fieldRows (existing nw : JsonObj) : List (JValue × JValue) :=
  [(mget existing "title", mget nw "title"),
   (mget existing "artist", mget nw "artists"),
   (mget existing "album", mget nw "album"),
   (mget existing "year", .str (pyStr (mget nw "year"))),
   (mget existing "composer", mget nw "composer"),
   (mget existing "genre", mget nw "genre"),
   (mget existing "language", mget nw "language")]

/-- `val or "(empty)"`: a falsy value displays as the sentinel. -/
def orEmpty (v : JValue) : JValue := if pyTruthy v then v else .str "(empty)"

/-- One row of the comparison is marked changed when the normalized
values differ (`if old_val != new_val`, app.py line 233). -/
def rowChanged (p : JValue × JValue) : Bool := !pyEq (orEmpty p.1) (orEmpty p.2)

/-- `changes_found` of `display_metadata_comparison` (app.py lines
227-239). -/
def changesFound (existing nw : JsonObj) : Bool :=
  (fieldRows existing nw).any rowChanged

/-- The normalization the specification describes for the diff: only a
blank (empty-string) or absent value displays as the sentinel.
Modelled from the spec: "normalize blank/absent to (empty)". -/
def specNormalize (v : Option JValue) : JValue :=
  match v with
  | none => .str "(empty)"
  | some (.str s) => if s.isEmpty then .str "(empty)" else .str s
  | some v => v

/-- Changed-flag of the title row as the specification words define it:
compare the spec-normalized old and new title values.
Modelled from the spec: "mark changed when normalized old differs from
normalized new". -/
def specTitleChanged (existing nw : JsonObj) : Bool :=
  !pyEq (specNormalize (jlookup existing "title")) (specNormalize (jlookup nw "title"))

/-- Per-file counter deltas of one loop iteration of `process_files`. -/
structure StatsDelta where
  success : Nat
  skipped : Nat
  errors : Nat
  processed : Nat
deriving DecidableEq

/-- A discovered audio file together with its tag-container state. -/
inductive AudioSrc where
  | mp3 : TagFile → AudioSrc
  | opus : OpusFile → AudioSrc
deriving DecidableEq

/-- `AudioMetadataGenerator.update_audio_metadata` (app.py lines
461-471), reduced to the data observed by the statistics: the returned
boolean and the skip-counter delta produced inside the updater. -/
def update_audio_metadata (overwrite confirmOk genreFails saveOk : Bool)
    (src : AudioSrc) (m : JsonObj) : Bool × Nat :=
  match src with
  | .mp3 f =>
    let r := update_mp3_metadata overwrite confirmOk genreFails saveOk f m
    (r.ret, r.skippedDelta)
  | .opus f =>
    let r := update_opus_metadata overwrite confirmOk saveOk f m
    (r.ret, r.skippedDelta)

/-- `"error" in metadata`. -/
def hasKey (m : JsonObj) (k : String) : Bool := (jlookup m k).isSome

/-- Counter deltas of one iteration of the `process_files` loop
(app.py lines 482-521) for one file.  `outerExn` tells whether an
exception escaped the per-file steps and was caught by the loop-level
handler (which increments only `errors` and skips the
`processed_files` increment); otherwise the write outcome and the
presence of an `error` key in the inference result drive the counters
exactly as in lines 499-508. -/
def process_one_file (outerExn : Bool) (overwrite confirmOk genreFails saveOk : Bool)
    (src : AudioSrc) (metadata : JsonObj) : StatsDelta :=
  if outerExn then ⟨0, 0, 1, 0⟩
  else
    let r := update_audio_metadata overwrite confirmOk genreFails saveOk src metadata
    ⟨if r.1 then 1 else 0,
     r.2,
     if !r.1 && hasKey metadata "error" then 1 else 0,
     1⟩

/-- No two adjacent characters both satisfy `p`. -/
def noTwo (p : Char → Bool) : List Char → Bool
  | a :: b :: t => !(p a && p b) && noTwo p (b :: t)
  | _ => true

/-- The inner JSON text used by the C3 counterexample: a valid object
without a title key. -/
def innerJson : String := "\x7b\x22album\x22: \x22X\x22\x7d"

/-- A concrete json.loads capability that parses `innerJson`. -/
def loads0 : String → Option JValue :=
  fun s => if s = innerJson then some (.obj [("album", .str "X")]) else none

-- helper lemmas and claim theorems

theorem mp3SetTitle_artist (m : JsonObj) (t : Mp3Tag) : (mp3SetTitle m t).artist = t.artist := by
  unfold mp3SetTitle; cases getTruthy m "title" <;> rfl

theorem mp3SetAlbum_artist (m : JsonObj) (t : Mp3Tag) : (mp3SetAlbum m t).artist = t.artist := by
  unfold mp3SetAlbum; cases getTruthy m "album" <;> rfl

theorem mp3SetYear_artist (m : JsonObj) (t : Mp3Tag) : (mp3SetYear m t).artist = t.artist := by
  unfold mp3SetYear
  cases getTruthy m "year" with
  | none => rfl
  | some v => by_cases h : isDigitStr (pyStr v) <;> simp [h]

theorem mp3SetComposer_artist (m : JsonObj) (t : Mp3Tag) : (mp3SetComposer m t).artist = t.artist := by
  unfold mp3SetComposer; cases getTruthy m "composer" <;> rfl

theorem mp3SetLanguage_artist (m : JsonObj) (t : Mp3Tag) : (mp3SetLanguage m t).artist = t.artist := by
  unfold mp3SetLanguage; cases getTruthy m "language" <;> rfl

theorem mp3SetGenre_artist (g : Bool) (m : JsonObj) (t : Mp3Tag) : (mp3SetGenre g m t).artist = t.artist := by
  unfold mp3SetGenre
  cases getTruthy m "genre" with
  | none => rfl
  | some v => cases g <;> simp

theorem mp3SetArtist_artist (m : JsonObj) (t : Mp3Tag) (v : JValue)
    (h : getTruthy m "artists" = some v) : (mp3SetArtist m t).artist = some (pyStr v) := by
  unfold mp3SetArtist; rw [h]

-- recording_date projections
theorem mp3SetTitle_rd (m : JsonObj) (t : Mp3Tag) : (mp3SetTitle m t).recording_date = t.recording_date := by
  unfold mp3SetTitle; cases getTruthy m "title" <;> rfl

theorem mp3SetArtist_rd (m : JsonObj) (t : Mp3Tag) : (mp3SetArtist m t).recording_date = t.recording_date := by
  unfold mp3SetArtist; cases getTruthy m "artists" <;> rfl

theorem mp3SetAlbum_rd (m : JsonObj) (t : Mp3Tag) : (mp3SetAlbum m t).recording_date = t.recording_date := by
  unfold mp3SetAlbum; cases getTruthy m "album" <;> rfl

theorem mp3SetComposer_rd (m : JsonObj) (t : Mp3Tag) : (mp3SetComposer m t).recording_date = t.recording_date := by
  unfold mp3SetComposer; cases getTruthy m "composer" <;> rfl

theorem mp3SetLanguage_rd (m : JsonObj) (t : Mp3Tag) : (mp3SetLanguage m t).recording_date = t.recording_date := by
  unfold mp3SetLanguage; cases getTruthy m "language" <;> rfl

theorem mp3SetGenre_rd (g : Bool) (m : JsonObj) (t : Mp3Tag) : (mp3SetGenre g m t).recording_date = t.recording_date := by
  unfold mp3SetGenre
  cases getTruthy m "genre" with
  | none => rfl
  | some v => cases g <;> simp

theorem mp3SetYear_rd (m : JsonObj) (t : Mp3Tag) (v : JValue)
    (h : getTruthy m "year" = some v) :
    (mp3SetYear m t).recording_date =
      (if isDigitStr (pyStr v) then some (pyStr v) else t.recording_date) := by
  unfold mp3SetYear; rw [h]
  by_cases hd : isDigitStr (pyStr v) <;> simp [hd]

-- vget/vset lemmas
theorem vget_vset_self (c : VorbisTags) (k : String) (vs : List String) :
    vget (vset c k vs) k = some vs := by
  induction c with
  | nil => simp [vset, vget]
  | cons a rest ih =>
    obtain ⟨k0, v0⟩ := a
    by_cases h : k0 = k <;> simp [vset, vget, h, ih]

theorem vget_vset_ne (c : VorbisTags) (k k2 : String) (vs : List String) (h : k2 ≠ k) :
    vget (vset c k vs) k2 = vget c k2 := by
  induction c with
  | nil =>
    simp only [vset, vget]
    exact if_neg (fun hh : k = k2 => h hh.symm)
  | cons a rest ih =>
    obtain ⟨k0, v0⟩ := a
    by_cases h0 : k0 = k
    · rw [show vset ((k0, v0) :: rest) k vs = vset rest k vs by simp [vset, h0]]
      rw [ih]
      simp only [vget]
      rw [if_neg (fun hh : k0 = k2 => h (hh.symm.trans h0))]
    · rw [show vset ((k0, v0) :: rest) k vs = (k0, v0) :: vset rest k vs by simp [vset, h0]]
      simp only [vget]
      by_cases h2 : k0 = k2
      · rw [if_pos h2, if_pos h2]
      · rw [if_neg h2, if_neg h2, ih]

theorem opusSetField_vget_ne (jk tk : String) (m : JsonObj) (c : VorbisTags) (k : String)
    (h : k ≠ tk) : vget (opusSetField jk tk m c) k = vget c k := by
  unfold opusSetField
  cases getTruthy m jk with
  | none => rfl
  | some v => exact vget_vset_ne c tk k [pyStr v] h

theorem opusSetField_vget_self (jk tk : String) (m : JsonObj) (c : VorbisTags) (v : JValue)
    (h : getTruthy m jk = some v) :
    vget (opusSetField jk tk m c) tk = some [pyStr v] := by
  unfold opusSetField; rw [h]; exact vget_vset_self c tk [pyStr v]

theorem opusSetYear_vget_ne (m : JsonObj) (c : VorbisTags) (k : String) (h : k ≠ "DATE") :
    vget (opusSetYear m c) k = vget c k := by
  unfold opusSetYear
  cases getTruthy m "year" with
  | none => rfl
  | some v =>
    by_cases hd : isDigitStr (pyStr v) <;> simp [hd, vget_vset_ne c "DATE" k [pyStr v] h]

theorem getTruthy_of (m : JsonObj) (k : String) (v : JValue)
    (hv : jlookup m k = some v) (ht : pyTruthy v = true) : getTruthy m k = some v := by
  unfold getTruthy; rw [hv]; simp [ht]

/-- C1 amended: when the inference result has a truthy artists value,
the value written as the artist field (MP3 and Opus) is the Python
str() of that value; for a list this is its repr, not a comma join. -/
theorem artists_list_written_via_python_str (t : Mp3Tag) (c : VorbisTags) (m : JsonObj)
    (g : Bool) (v : JValue) (hv : jlookup m "artists" = some v) (ht : pyTruthy v = true) :
    (applyMp3Fields t m g).artist = some (pyStr v) ∧
    vget (applyOpusFields c m) "ARTIST" = some [pyStr v] := by
  have hg : getTruthy m "artists" = some v := getTruthy_of m "artists" v hv ht
  constructor
  · unfold applyMp3Fields
    rw [mp3SetGenre_artist, mp3SetLanguage_artist, mp3SetComposer_artist, mp3SetYear_artist,
      mp3SetAlbum_artist, mp3SetArtist_artist m _ v hg]
  · unfold applyOpusFields
    rw [opusSetField_vget_ne _ _ _ _ _ (by decide), opusSetField_vget_ne _ _ _ _ _ (by decide),
      opusSetField_vget_ne _ _ _ _ _ (by decide), opusSetYear_vget_ne _ _ _ (by decide),
      opusSetField_vget_ne _ _ _ _ _ (by decide),
      opusSetField_vget_self "artists" "ARTIST" m _ v hg]

theorem artists_list_written_via_python_str_witness :
    (applyMp3Fields emptyMp3Tag [("artists", JValue.arr [JValue.str "John", JValue.str "Paul"])] false).artist
      = some (pyStr (JValue.arr [JValue.str "John", JValue.str "Paul"])) ∧
    vget (applyOpusFields [] [("artists", JValue.arr [JValue.str "John", JValue.str "Paul"])]) "ARTIST"
      = some [pyStr (JValue.arr [JValue.str "John", JValue.str "Paul"])] :=
  artists_list_written_via_python_str emptyMp3Tag [] _ false _ rfl (by decide)

/-- C1 counterexample: a two-element artists list is written as
"['John', 'Paul']" (the Python repr), not "John, Paul". -/
theorem artists_join_counterexample :
    (applyMp3Fields emptyMp3Tag [("artists", JValue.arr [JValue.str "John", JValue.str "Paul"])] false).artist
      ≠ some "John, Paul" ∧
    (applyMp3Fields emptyMp3Tag [("artists", JValue.arr [JValue.str "John", JValue.str "Paul"])] false).artist
      = some ("[" ++ squote ++ "John" ++ squote ++ ", " ++ squote ++ "Paul" ++ squote ++ "]") := by
  constructor
  · decide
  · decide

/-- C5 amended: with a truthy year value, the year/date field is
written iff its string form is all digits; otherwise it is left
unchanged (silently), and the rest of the write still succeeds. -/
theorem year_truthy_digit_gate (t : Mp3Tag) (c : VorbisTags) (m : JsonObj) (g : Bool)
    (v : JValue) (hv : jlookup m "year" = some v) (ht : pyTruthy v = true) :
    (applyMp3Fields t m g).recording_date =
      (if isDigitStr (pyStr v) then some (pyStr v) else t.recording_date) ∧
    vget (applyOpusFields c m) "DATE" =
      (if isDigitStr (pyStr v) then some [pyStr v] else vget c "DATE") ∧
    (update_mp3_metadata true true g true (.tagged t) m).ret = true ∧
    (update_opus_metadata true true true (.tags c) m).ret = true := by
  have hg : getTruthy m "year" = some v := getTruthy_of m "year" v hv ht
  refine ⟨?_, ?_, ?_, ?_⟩
  · unfold applyMp3Fields
    rw [mp3SetGenre_rd, mp3SetLanguage_rd, mp3SetComposer_rd, mp3SetYear_rd m _ v hg,
      mp3SetAlbum_rd, mp3SetArtist_rd, mp3SetTitle_rd]
  · unfold applyOpusFields
    rw [opusSetField_vget_ne _ _ _ _ _ (by decide), opusSetField_vget_ne _ _ _ _ _ (by decide),
      opusSetField_vget_ne _ _ _ _ _ (by decide)]
    unfold opusSetYear
    rw [hg]
    by_cases hd : isDigitStr (pyStr v)
    · simp [hd, vget_vset_self]
    · simp only [hd, Bool.false_eq_true, if_false]
      rw [opusSetField_vget_ne _ _ _ _ _ (by decide), opusSetField_vget_ne _ _ _ _ _ (by decide),
        opusSetField_vget_ne _ _ _ _ _ (by decide)]
  · simp [update_mp3_metadata]
  · simp [update_opus_metadata]

theorem year_truthy_digit_gate_witness :
    (applyMp3Fields emptyMp3Tag [("year", JValue.str "abcd")] false).recording_date
      = (if isDigitStr (pyStr (JValue.str "abcd")) then some (pyStr (JValue.str "abcd")) else emptyMp3Tag.recording_date) ∧
    vget (applyOpusFields [] [("year", JValue.str "abcd")]) "DATE"
      = (if isDigitStr (pyStr (JValue.str "abcd")) then some [pyStr (JValue.str "abcd")] else vget [] "DATE") ∧
    (update_mp3_metadata true true false true (.tagged emptyMp3Tag) [("year", JValue.str "abcd")]).ret = true ∧
    (update_opus_metadata true true true (.tags []) [("year", JValue.str "abcd")]).ret = true :=
  year_truthy_digit_gate emptyMp3Tag [] [("year", JValue.str "abcd")] false (JValue.str "abcd") rfl (by decide)

/-- C5 counterexample: the year value 0 is present (and all digits once
stringified) yet the truthiness gate keeps it from being written. -/
theorem year_zero_counterexample :
    jlookup [("year", JValue.num 0)] "year" = some (JValue.num 0) ∧
    isDigitStr (pyStr (JValue.num 0)) = true ∧
    (applyMp3Fields emptyMp3Tag [("year", JValue.num 0)] false).recording_date = none ∧
    vget (applyOpusFields [] [("year", JValue.num 0)]) "DATE" = none := by
  refine ⟨rfl, by decide, by decide, rfl⟩

/-- C4: with overwrite disabled and a destination already carrying a
non-empty title or artist, the write returns false, increments the
skipped counter once, and leaves every tag field of the destination
unmodified (for both formats; a declined confirmation leaves no
destination at all, so the conclusion holds on every path). -/
theorem non_overwrite_skip_untouched (confirmOk genreFails saveOk : Bool)
    (t0 : Mp3Tag) (c0 : VorbisTags) (m : JsonObj)
    (hm : (otruthy t0.title || otruthy t0.artist) = true)
    (hc : (vtruthy c0 "TITLE" || vtruthy c0 "ARTIST") = true) :
    (update_mp3_metadata false confirmOk genreFails saveOk (.tagged t0) m).ret = false ∧
    (update_mp3_metadata false confirmOk genreFails saveOk (.tagged t0) m).skippedDelta = 1 ∧
    (∀ f, (update_mp3_metadata false confirmOk genreFails saveOk (.tagged t0) m).output = some f → f = .tagged t0) ∧
    (update_opus_metadata false confirmOk saveOk (.tags c0) m).ret = false ∧
    (update_opus_metadata false confirmOk saveOk (.tags c0) m).skippedDelta = 1 ∧
    (∀ f, (update_opus_metadata false confirmOk saveOk (.tags c0) m).output = some f → f = .tags c0) := by
  cases confirmOk <;>
    simp [update_mp3_metadata, update_opus_metadata, hm, hc]

theorem non_overwrite_skip_untouched_witness :
    (update_mp3_metadata false true true true (.tagged ⟨some "T", none, none, none, none, none, none⟩) []).ret = false ∧
    (update_mp3_metadata false true true true (.tagged ⟨some "T", none, none, none, none, none, none⟩) []).skippedDelta = 1 ∧
    (∀ f, (update_mp3_metadata false true true true (.tagged ⟨some "T", none, none, none, none, none, none⟩) []).output = some f →
      f = .tagged ⟨some "T", none, none, none, none, none, none⟩) ∧
    (update_opus_metadata false true true (.tags [("TITLE", ["T"])]) []).ret = false ∧
    (update_opus_metadata false true true (.tags [("TITLE", ["T"])]) []).skippedDelta = 1 ∧
    (∀ f, (update_opus_metadata false true true (.tags [("TITLE", ["T"])]) []).output = some f →
      f = .tags [("TITLE", ["T"])]) :=
  non_overwrite_skip_untouched true true true ⟨some "T", none, none, none, none, none, none⟩
    [("TITLE", ["T"])] [] (by decide) (by decide)

/-- C8: the copy to the output path happens before the non-overwrite
skip check, so a skipped file leaves a full copy with the source tags
at the output path, while a user-declined write leaves no output copy. -/
theorem skip_leaves_copy_decline_leaves_none (ow genreFails saveOk : Bool)
    (t0 : Mp3Tag) (c0 : VorbisTags) (m : JsonObj)
    (hm : (otruthy t0.title || otruthy t0.artist) = true)
    (hc : (vtruthy c0 "TITLE" || vtruthy c0 "ARTIST") = true) :
    (update_mp3_metadata false true genreFails saveOk (.tagged t0) m).output = some (.tagged t0) ∧
    (update_opus_metadata false true saveOk (.tags c0) m).output = some (.tags c0) ∧
    (update_mp3_metadata ow false genreFails saveOk (.tagged t0) m).output = none ∧
    (update_opus_metadata ow false saveOk (.tags c0) m).output = none := by
  simp [update_mp3_metadata, update_opus_metadata, hm, hc]

theorem skip_leaves_copy_decline_leaves_none_witness :
    (update_mp3_metadata false true false true (.tagged ⟨none, some "A", none, none, none, none, none⟩) []).output
      = some (.tagged ⟨none, some "A", none, none, none, none, none⟩) ∧
    (update_opus_metadata false true true (.tags [("ARTIST", ["A"])]) []).output
      = some (.tags [("ARTIST", ["A"])]) ∧
    (update_mp3_metadata true false false true (.tagged ⟨none, some "A", none, none, none, none, none⟩) []).output = none ∧
    (update_opus_metadata true false true (.tags [("ARTIST", ["A"])]) []).output = none :=
  skip_leaves_copy_decline_leaves_none true false true ⟨none, some "A", none, none, none, none, none⟩
    [("ARTIST", ["A"])] [] (by decide) (by decide)

/-- C2 evaluated at its failing inputs: a write failure without an
inference error increments none of success/skipped/errors; a declined
update whose inference result carries an error key increments both
skipped and errors; an exception caught at the loop level increments
errors but not processed_files. -/
theorem stats_counter_gap_eval :
    process_one_file false true true false true (.mp3 .unreadable) [("title", JValue.str "Song")]
      = ⟨0, 0, 0, 1⟩ ∧
    process_one_file false false false true true (.mp3 (.tagged emptyMp3Tag))
      [("title", JValue.str "Song"), ("error", JValue.str "boom")] = ⟨0, 1, 1, 1⟩ ∧
    process_one_file true true true true true (.mp3 .unreadable) [] = ⟨0, 0, 1, 0⟩ := by
  refine ⟨by decide, by decide, by decide⟩

/-- C9: both existing-metadata readers return the empty mapping on any
failure to load the file or its tag container (and, being total
functions of the load outcome, never raise). -/
theorem existing_metadata_failure_empty :
    get_mp3_existing_metadata .unreadable = [] ∧
    get_mp3_existing_metadata .noTag = [] ∧
    get_opus_existing_metadata .unreadable = [] :=
  ⟨rfl, rfl, rfl⟩

/-- C10: discovery concatenates all MP3 files before all Opus files, so
in the processing sequence every MP3 file precedes every Opus file. -/
theorem mp3_before_opus_order (m o : List String) (i j : Nat)
    (hi : i < m.length) (hj : j < o.length) :
    (get_audio_files m o)[i]? = m[i]? ∧
    (get_audio_files m o)[m.length + j]? = o[j]? ∧
    i < m.length + j := by
  refine ⟨?_, ?_, by omega⟩
  · unfold get_audio_files
    rw [List.getElem?_append, if_pos hi]
  · unfold get_audio_files
    rw [List.getElem?_append, if_neg (by omega)]
    congr 1
    omega

theorem mp3_before_opus_order_witness :
    (get_audio_files ["a.mp3"] ["b.opus"])[0]? = (["a.mp3"] : List String)[0]? ∧
    (get_audio_files ["a.mp3"] ["b.opus"])[(["a.mp3"] : List String).length + 0]? = (["b.opus"] : List String)[0]? ∧
    0 < (["a.mp3"] : List String).length + 0 :=
  mp3_before_opus_order ["a.mp3"] ["b.opus"] 0 0 (by decide) (by decide)

theorem pyEq_str_refl (s : String) : pyEq (.str s) (.str s) = true := by
  simp [pyEq, numVal, jeq]

theorem orEmpty_str (s : String) : ∃ u, orEmpty (.str s) = .str u := by
  unfold orEmpty
  by_cases h : pyTruthy (JValue.str s) <;> simp [h]

theorem rowChanged_str_same (s : String) : rowChanged (.str s, .str s) = false := by
  obtain ⟨u, hu⟩ := orEmpty_str s
  simp [rowChanged, hu, pyEq_str_refl]

/-- C7 amended: a display row is marked changed exactly when the
falsy-normalized old and new values differ under Python equality (the
new year value stringified first); identical string-valued existing and
inferred records yield zero changed fields. -/
theorem diff_changed_iff_normalized :
    (∀ existing nw : JsonObj,
      changesFound existing nw = false ↔
        ∀ p ∈ fieldRows existing nw, pyEq (orEmpty p.1) (orEmpty p.2) = true) ∧
    (∀ t a al y c g lg : String,
      changesFound
        [("title", .str t), ("artist", .str a), ("album", .str al), ("year", .str y),
         ("composer", .str c), ("genre", .str g), ("language", .str lg)]
        [("title", .str t), ("artists", .str a), ("album", .str al), ("year", .str y),
         ("composer", .str c), ("genre", .str g), ("language", .str lg)] = false) := by
  constructor
  · intro existing nw
    unfold changesFound
    rw [List.any_eq_false]
    constructor
    · intro h p hp
      have hb := h p hp
      simp only [rowChanged, Bool.not_eq_true] at hb ⊢
      simpa using hb
    · intro h p hp
      simp [rowChanged, h p hp]
  · intro t a al y c g lg
    simp [changesFound, fieldRows, mget, jlookup, pyStr, rowChanged_str_same]

/-- C7 counterexample: an absent existing title against an inferred
title 0 — the spec-worded normalization (only blank or absent values
display as the sentinel) marks the field changed, while the code
normalizes every falsy value and reports no change. -/
theorem diff_spec_normalization_counterexample :
    specTitleChanged [] [("title", JValue.num 0)] = true ∧
    changesFound [] [("title", JValue.num 0)] = false := by
  refine ⟨by decide, by decide⟩

/-- C3 amended: the inference client is total (never raises past its
boundary); its result is either an object produced by the JSON parse
capability (returned as-is, possibly without a title key) or a fallback
mapping whose title equals the query key and whose error field is a
non-empty message (non-empty provided the transport exception message
is non-empty). -/
theorem ollama_result_shape (loads : String → Option JValue) (song : String)
    (outcome : HttpOutcome)
    (hmsg : ∀ msg, outcome = HttpOutcome.raises msg → msg ≠ "") :
    (∃ s meta, loads s = some meta ∧ get_metadata_from_ollama loads song outcome = meta) ∨
    (∃ e, e ≠ "" ∧
      jget (get_metadata_from_ollama loads song outcome) "title" = some (.str song) ∧
      jget (get_metadata_from_ollama loads song outcome) "error" = some (.str e)) := by
  cases outcome with
  | raises msg =>
    right
    exact ⟨msg, hmsg msg rfl, by simp [get_metadata_from_ollama, jget, jlookup],
      by simp [get_metadata_from_ollama, jget, jlookup]⟩
  | returns result =>
    cases result with
    | obj fields =>
      cases hresp : jlookup fields "response" with
      | none =>
        right
        exact ⟨"Invalid response format", by decide,
          by simp [get_metadata_from_ollama, hresp, jget, jlookup],
          by simp [get_metadata_from_ollama, hresp, jget, jlookup]⟩
      | some val =>
        cases val with
        | str rtext =>
          by_cases hbr :
            ((String.mk (pyStrip isPySpace rtext.data)).data.head? = some lbraceCh
              && (String.mk (pyStrip isPySpace rtext.data)).data.getLast? = some rbraceCh) = true
          · cases hload : loads (String.mk (pyStrip isPySpace rtext.data)) with
            | some meta =>
              left
              exact ⟨String.mk (pyStrip isPySpace rtext.data), meta, hload,
                by simp [get_metadata_from_ollama, hresp, hbr, hload]⟩
            | none =>
              right
              exact ⟨"Failed to parse response", by decide,
                by simp [get_metadata_from_ollama, hresp, hbr, hload, parseFallback, jget, jlookup],
                by simp [get_metadata_from_ollama, hresp, hbr, hload, parseFallback, jget, jlookup]⟩
          · cases hspan : braceSpanList (String.mk (pyStrip isPySpace rtext.data)).data with
            | some span =>
              cases hload : loads (String.mk span) with
              | some meta =>
                left
                exact ⟨String.mk span, meta, hload,
                  by simp [get_metadata_from_ollama, hresp, hbr, hspan, hload]⟩
              | none =>
                right
                exact ⟨"Failed to parse response", by decide,
                  by simp [get_metadata_from_ollama, hresp, hbr, hspan, hload, parseFallback, jget, jlookup],
                  by simp [get_metadata_from_ollama, hresp, hbr, hspan, hload, parseFallback, jget, jlookup]⟩
            | none =>
              right
              exact ⟨"Failed to parse response", by decide,
                by simp [get_metadata_from_ollama, hresp, hbr, hspan, parseFallback, jget, jlookup],
                by simp [get_metadata_from_ollama, hresp, hbr, hspan, parseFallback, jget, jlookup]⟩
        | null =>
          right
          exact ⟨"AttributeError", by decide,
            by simp [get_metadata_from_ollama, hresp, jget, jlookup],
            by simp [get_metadata_from_ollama, hresp, jget, jlookup]⟩
        | bool b =>
          right
          exact ⟨"AttributeError", by decide,
            by simp [get_metadata_from_ollama, hresp, jget, jlookup],
            by simp [get_metadata_from_ollama, hresp, jget, jlookup]⟩
        | num n =>
          right
          exact ⟨"AttributeError", by decide,
            by simp [get_metadata_from_ollama, hresp, jget, jlookup],
            by simp [get_metadata_from_ollama, hresp, jget, jlookup]⟩
        | arr xs =>
          right
          exact ⟨"AttributeError", by decide,
            by simp [get_metadata_from_ollama, hresp, jget, jlookup],
            by simp [get_metadata_from_ollama, hresp, jget, jlookup]⟩
        | obj xs =>
          right
          exact ⟨"AttributeError", by decide,
            by simp [get_metadata_from_ollama, hresp, jget, jlookup],
            by simp [get_metadata_from_ollama, hresp, jget, jlookup]⟩
    | null =>
      right
      exact ⟨"TypeError", by decide,
        by simp [get_metadata_from_ollama, jget, jlookup],
        by simp [get_metadata_from_ollama, jget, jlookup]⟩
    | bool b =>
      right
      exact ⟨"TypeError", by decide,
        by simp [get_metadata_from_ollama, jget, jlookup],
        by simp [get_metadata_from_ollama, jget, jlookup]⟩
    | num n =>
      right
      exact ⟨"TypeError", by decide,
        by simp [get_metadata_from_ollama, jget, jlookup],
        by simp [get_metadata_from_ollama, jget, jlookup]⟩
    | str s =>
      right
      exact ⟨"TypeError", by decide,
        by simp [get_metadata_from_ollama, jget, jlookup],
        by simp [get_metadata_from_ollama, jget, jlookup]⟩
    | arr xs =>
      right
      exact ⟨"TypeError", by decide,
        by simp [get_metadata_from_ollama, jget, jlookup],
        by simp [get_metadata_from_ollama, jget, jlookup]⟩

theorem ollama_result_shape_witness :
    (∃ s meta, (fun _ : String => (none : Option JValue)) s = some meta ∧
      get_metadata_from_ollama (fun _ => none) "x" (.returns (.obj [])) = meta) ∨
    (∃ e, e ≠ "" ∧
      jget (get_metadata_from_ollama (fun _ => none) "x" (.returns (.obj []))) "title" = some (.str "x") ∧
      jget (get_metadata_from_ollama (fun _ => none) "x" (.returns (.obj []))) "error" = some (.str e)) :=
  ollama_result_shape (fun _ => none) "x" (.returns (.obj []))
    (fun msg h => HttpOutcome.noConfusion h)

/-- C3 counterexample: a successful backend response whose parsed JSON
object lacks a title key is returned as-is, so the client result has no
title key at all. -/
theorem ollama_title_key_counterexample :
    get_metadata_from_ollama loads0 "Yesterday" (.returns (.obj [("response", .str innerJson)]))
      = .obj [("album", JValue.str "X")] ∧
    jget (get_metadata_from_ollama loads0 "Yesterday" (.returns (.obj [("response", .str innerJson)]))) "title"
      = none := by
  exact ⟨rfl, rfl⟩

theorem noTwo_cons (p : Char → Bool) (a : Char) (l : List Char) :
    noTwo p (a :: l) = true ↔ (∀ d ∈ l.head?, (p a && p d) = false) ∧ noTwo p l = true := by
  cases l with
  | nil => simp [noTwo]
  | cons b t => cases hpa : p a <;> simp [noTwo, hpa]
  
theorem mem_collapseRuns (p : Char → Bool) (r : Char) :
    ∀ (l : List Char) (b : Bool) (c : Char), c ∈ collapseRuns p r b l → c = r ∨ (c ∈ l ∧ p c = false) := by
  intro l
  induction l with
  | nil => intro b c h; simp [collapseRuns] at h
  | cons a as ih =>
    intro b c h
    by_cases hp : p a
    · cases b with
      | true =>
        rw [show collapseRuns p r true (a :: as) = collapseRuns p r true as by
          simp [collapseRuns, hp]] at h
        rcases ih true c h with h1 | h2
        · exact Or.inl h1
        · exact Or.inr ⟨List.mem_cons_of_mem _ h2.1, h2.2⟩
      | false =>
        rw [show collapseRuns p r false (a :: as) = r :: collapseRuns p r true as by
          simp [collapseRuns, hp]] at h
        rcases List.mem_cons.mp h with h1 | h1
        · exact Or.inl h1
        · rcases ih true c h1 with h2 | h2
          · exact Or.inl h2
          · exact Or.inr ⟨List.mem_cons_of_mem _ h2.1, h2.2⟩
    · rw [show collapseRuns p r b (a :: as) = a :: collapseRuns p r false as by
        simp [collapseRuns, hp]] at h
      rcases List.mem_cons.mp h with h1 | h1
      · exact Or.inr ⟨by simp [h1], by rw [h1]; simp [hp]⟩
      · rcases ih false c h1 with h2 | h2
        · exact Or.inl h2
        · exact Or.inr ⟨List.mem_cons_of_mem _ h2.1, h2.2⟩

theorem collapseRuns_eq_self (p : Char → Bool) (r : Char) :
    ∀ (l : List Char), (∀ c ∈ l, p c = false) → ∀ b, collapseRuns p r b l = l := by
  intro l
  induction l with
  | nil => intro _ b; rfl
  | cons a as ih =>
    intro h b
    have hpa : p a = false := h a (by simp)
    rw [show collapseRuns p r b (a :: as) = a :: collapseRuns p r false as by
      simp [collapseRuns, hpa]]
    rw [ih (fun c hc => h c (List.mem_cons_of_mem _ hc)) false]

theorem collapseRuns_true_head (p : Char → Bool) (r : Char) :
    ∀ (l : List Char), collapseRuns p r true l = [] ∨
      ∃ d ds, collapseRuns p r true l = d :: ds ∧ p d = false := by
  intro l
  induction l with
  | nil => exact Or.inl rfl
  | cons a as ih =>
    by_cases hp : p a
    · rw [show collapseRuns p r true (a :: as) = collapseRuns p r true as by
        simp [collapseRuns, hp]]
      exact ih
    · rw [show collapseRuns p r true (a :: as) = a :: collapseRuns p r false as by
        simp [collapseRuns, hp]]
      exact Or.inr ⟨a, _, rfl, eq_false_of_ne_true hp⟩

theorem noTwo_collapseRuns (p : Char → Bool) :
    ∀ (l : List Char) (b : Bool), noTwo p (collapseRuns p ' ' b l) = true := by
  intro l
  induction l with
  | nil => intro b; rfl
  | cons a as ih =>
    intro b
    by_cases hp : p a
    · cases b with
      | true =>
        rw [show collapseRuns p ' ' true (a :: as) = collapseRuns p ' ' true as by
          simp [collapseRuns, hp]]
        exact ih true
      | false =>
        rw [show collapseRuns p ' ' false (a :: as) = ' ' :: collapseRuns p ' ' true as by
          simp [collapseRuns, hp]]
        rw [noTwo_cons]
        refine ⟨?_, ih true⟩
        intro d hd
        rcases collapseRuns_true_head p ' ' as with h0 | ⟨d0, ds0, h0, hpd0⟩
        · rw [h0] at hd; simp at hd
        · rw [h0] at hd
          simp at hd
          rw [← hd, hpd0, Bool.and_false]
    · rw [show collapseRuns p ' ' b (a :: as) = a :: collapseRuns p ' ' false as by
        simp [collapseRuns, hp]]
      rw [noTwo_cons]
      refine ⟨?_, ih false⟩
      intro d hd
      rw [eq_false_of_ne_true hp, Bool.false_and]

theorem collapseRuns_fix (p : Char → Bool) :
    ∀ (l : List Char) (b : Bool), (∀ c ∈ l, p c = true → c = ' ') → noTwo p l = true →
      (b = true → ∀ d ∈ l.head?, p d = false) → collapseRuns p ' ' b l = l := by
  intro l
  induction l with
  | nil => intro b _ _ _; rfl
  | cons a as ih =>
    intro b h1 h2 h3
    by_cases hp : p a
    · have hb : b = false := by
        cases b with
        | false => rfl
        | true => exact absurd hp (by simpa using h3 rfl a rfl)
      subst hb
      have ha : a = ' ' := h1 a (by simp) hp
      rw [show collapseRuns p ' ' false (a :: as) = ' ' :: collapseRuns p ' ' true as by
        simp [collapseRuns, hp]]
      have hhead : ∀ d ∈ as.head?, p d = false := by
        intro d hd
        have := (noTwo_cons p a as).mp h2
        have h4 := this.1 d hd
        rw [hp] at h4
        simpa using h4
      rw [ih true (fun c hc => h1 c (List.mem_cons_of_mem _ hc))
        ((noTwo_cons p a as).mp h2).2 (fun _ => hhead), ha]
    · rw [show collapseRuns p ' ' b (a :: as) = a :: collapseRuns p ' ' false as by
        simp [collapseRuns, hp]]
      rw [ih false (fun c hc => h1 c (List.mem_cons_of_mem _ hc))
        ((noTwo_cons p a as).mp h2).2 (by intro h; cases h)]

theorem mem_dropWhileCh (p : Char → Bool) :
    ∀ (l : List Char) (c : Char), c ∈ l.dropWhile p → c ∈ l := by
  intro l
  induction l with
  | nil => intro c h; simpa using h
  | cons a as ih =>
    intro c h
    by_cases hp : p a
    · rw [List.dropWhile_cons_of_pos hp] at h
      exact List.mem_cons_of_mem _ (ih c h)
    · rw [List.dropWhile_cons_of_neg hp] at h
      exact h

theorem head_dropWhileCh (p : Char → Bool) :
    ∀ (l : List Char), ∀ d ∈ (l.dropWhile p).head?, p d = false := by
  intro l
  induction l with
  | nil => intro d hd; simp at hd
  | cons a as ih =>
    intro d hd
    by_cases hp : p a
    · rw [List.dropWhile_cons_of_pos hp] at hd
      exact ih d hd
    · rw [List.dropWhile_cons_of_neg hp] at hd
      simp at hd
      rw [← hd]
      exact eq_false_of_ne_true hp

theorem dropWhileCh_eq_self (p : Char → Bool) (l : List Char)
    (h : ∀ d ∈ l.head?, p d = false) : l.dropWhile p = l := by
  cases l with
  | nil => rfl
  | cons a as =>
    have : p a = false := h a rfl
    rw [List.dropWhile_cons_of_neg (by simp [this])]

theorem noTwo_dropWhileCh (p : Char → Bool) :
    ∀ (l : List Char), noTwo p l = true → noTwo p (l.dropWhile p) = true := by
  intro l
  induction l with
  | nil => intro h; exact h
  | cons a as ih =>
    intro h
    by_cases hp : p a
    · rw [List.dropWhile_cons_of_pos hp]
      exact ih ((noTwo_cons p a as).mp h).2
    · rw [List.dropWhile_cons_of_neg hp]
      exact h

theorem mem_dropTrail (p : Char → Bool) :
    ∀ (l : List Char) (c : Char), c ∈ dropTrail p l → c ∈ l := by
  intro l
  induction l with
  | nil => intro c h; simpa [dropTrail] using h
  | cons a as ih =>
    intro c h
    rw [dropTrail] at h
    cases hdt : dropTrail p as with
    | nil =>
      rw [hdt] at h
      by_cases hp : p a
      · simp [hp] at h
      · simp [hp] at h
        simp [h]
    | cons b bs =>
      rw [hdt] at h
      rcases List.mem_cons.mp h with h1 | h1
      · simp [h1]
      · exact List.mem_cons_of_mem _ (ih c (hdt ▸ h1))

theorem head_dropTrail (p : Char → Bool) :
    ∀ (l : List Char), dropTrail p l = [] ∨ (dropTrail p l).head? = l.head? := by
  intro l
  cases l with
  | nil => exact Or.inl rfl
  | cons a as =>
    rw [dropTrail]
    cases hdt : dropTrail p as with
    | nil =>
      by_cases hp : p a
      · simp [hp]
      · simp [hp]
    | cons b bs => simp

theorem getLast_dropTrail (p : Char → Bool) :
    ∀ (l : List Char), ∀ d ∈ (dropTrail p l).getLast?, p d = false := by
  intro l
  induction l with
  | nil => intro d hd; simp [dropTrail] at hd
  | cons a as ih =>
    intro d hd
    rw [dropTrail] at hd
    cases hdt : dropTrail p as with
    | nil =>
      rw [hdt] at hd
      by_cases hp : p a
      · simp [hp] at hd
      · simp [hp] at hd
        rw [← hd]
        exact eq_false_of_ne_true hp
    | cons b bs =>
      rw [hdt] at hd
      rw [List.getLast?_cons_cons] at hd
      exact ih d (hdt ▸ hd)

theorem dropTrail_eq_self (p : Char → Bool) :
    ∀ (l : List Char), (∀ d ∈ l.getLast?, p d = false) → dropTrail p l = l := by
  intro l
  induction l with
  | nil => intro _; rfl
  | cons a as ih =>
    intro h
    rw [dropTrail]
    cases as with
    | nil =>
      have hpa : p a = false := h a rfl
      simp [dropTrail, hpa]
    | cons b bs =>
      have hlast : ∀ d ∈ (b :: bs).getLast?, p d = false := by
        intro d hd
        exact h d (by rw [List.getLast?_cons_cons]; exact hd)
      rw [ih hlast]

theorem noTwo_dropTrail (p : Char → Bool) :
    ∀ (l : List Char), noTwo p l = true → noTwo p (dropTrail p l) = true := by
  intro l
  induction l with
  | nil => intro h; exact h
  | cons a as ih =>
    intro h
    rw [dropTrail]
    cases hdt : dropTrail p as with
    | nil =>
      by_cases hp : p a
      · simp [hp, noTwo]
      · simp [hp, noTwo]
    | cons b bs =>
      have h2 := (noTwo_cons p a as).mp h
      have hnt : noTwo p (b :: bs) = true := hdt ▸ ih h2.2
      rw [noTwo_cons]
      refine ⟨?_, hnt⟩
      intro d hd
      simp at hd
      subst hd
      cases as with
      | nil => simp [dropTrail] at hdt
      | cons a2 as2 =>
        have hh : (dropTrail p (a2 :: as2)).head? = (a2 :: as2).head? := by
          rcases head_dropTrail p (a2 :: as2) with h0 | h0
          · rw [h0] at hdt; cases hdt
          · exact h0
        rw [hdt] at hh
        simp at hh
        have := h2.1 a2 rfl
        rw [← hh] at this
        exact this

theorem mem_pyStrip (p : Char → Bool) (l : List Char) (c : Char)
    (h : c ∈ pyStrip p l) : c ∈ l :=
  mem_dropWhileCh p l c (mem_dropTrail p (l.dropWhile p) c h)

theorem head_pyStrip (p : Char → Bool) (l : List Char) :
    ∀ d ∈ (pyStrip p l).head?, p d = false := by
  intro d hd
  unfold pyStrip at hd
  rcases head_dropTrail p (l.dropWhile p) with h0 | h0
  · rw [h0] at hd; simp at hd
  · rw [h0] at hd
    exact head_dropWhileCh p l d hd

theorem getLast_pyStrip (p : Char → Bool) (l : List Char) :
    ∀ d ∈ (pyStrip p l).getLast?, p d = false := by
  intro d hd
  exact getLast_dropTrail p (l.dropWhile p) d hd

theorem noTwo_pyStrip (p : Char → Bool) (l : List Char) (h : noTwo p l = true) :
    noTwo p (pyStrip p l) = true :=
  noTwo_dropTrail p (l.dropWhile p) (noTwo_dropWhileCh p l h)

theorem pyStrip_eq_self (p : Char → Bool) (l : List Char)
    (hh : ∀ d ∈ l.head?, p d = false) (hl : ∀ d ∈ l.getLast?, p d = false) :
    pyStrip p l = l := by
  unfold pyStrip
  rw [dropWhileCh_eq_self p l hh, dropTrail_eq_self p l hl]

theorem lastIdx_eq_none (c : Char) :
    ∀ (l : List Char), c ∉ l → lastIdx c l = none := by
  intro l
  induction l with
  | nil => intro _; rfl
  | cons a as ih =>
    intro h
    rw [lastIdx, ih (fun hm => h (List.mem_cons_of_mem _ hm))]
    rw [if_neg (fun ha : a = c => h (by simp [ha]))]

theorem splitextRootList_eq_self (l : List Char) (h : '.' ∉ l) :
    splitextRootList l = l := by
  unfold splitextRootList
  rw [lastIdx_eq_none '.' l h]

theorem cleanList_fix (l0 : List Char)
    (hs2 : stripLeadNum (cleanList l0) = cleanList l0)
    (hs3 : stripBracket (cleanList l0) = cleanList l0) :
    cleanList (cleanList l0) = cleanList l0 := by
  have hr : cleanList l0 =
      pyStrip isPySpace (collapseRuns isPySpace ' ' false
        (collapseRuns isUD ' ' false (stripBracket (stripLeadNum (splitextRootList l0))))) := rfl
  have hmem : ∀ c ∈ cleanList l0, (isPySpace c = true → c = ' ') ∧ isUD c = false := by
    intro c hc
    rw [hr] at hc
    have hc1 := mem_pyStrip isPySpace _ c hc
    rcases mem_collapseRuns isPySpace ' ' _ false c hc1 with he | ⟨hc2, hsp⟩
    · subst he
      exact ⟨fun _ => rfl, by decide⟩
    · rcases mem_collapseRuns isUD ' ' _ false c hc2 with he | ⟨hc3, hud⟩
      · subst he
        exact ⟨fun _ => rfl, by decide⟩
      · refine ⟨fun hsp2 => ?_, hud⟩
        rw [hsp2] at hsp
        cases hsp
  have hP1 : ∀ c ∈ cleanList l0, isPySpace c = true → c = ' ' := fun c hc => (hmem c hc).1
  have hUD : ∀ c ∈ cleanList l0, isUD c = false := fun c hc => (hmem c hc).2
  have hN : noTwo isPySpace (cleanList l0) = true := by
    rw [hr]
    exact noTwo_pyStrip isPySpace _ (noTwo_collapseRuns isPySpace _ false)
  have hH : ∀ d ∈ (cleanList l0).head?, isPySpace d = false := by
    rw [hr]
    exact head_pyStrip isPySpace _
  have hL : ∀ d ∈ (cleanList l0).getLast?, isPySpace d = false := by
    rw [hr]
    exact getLast_pyStrip isPySpace _
  have hdot : '.' ∉ cleanList l0 := by
    intro hm
    have := hUD '.' hm
    simp [isUD] at this
  conv_lhs => rw [show cleanList (cleanList l0) =
    pyStrip isPySpace (collapseRuns isPySpace ' ' false (collapseRuns isUD ' ' false
      (stripBracket (stripLeadNum (splitextRootList (cleanList l0)))))) from rfl]
  rw [splitextRootList_eq_self _ hdot, hs2, hs3,
    collapseRuns_eq_self isUD ' ' _ hUD false,
    collapseRuns_fix isPySpace _ false hP1 hN (fun h => nomatch h),
    pyStrip_eq_self isPySpace _ hH hL]

/-- C6 amended: on an extension-free name whose cleaned form does not
start with a digit run followed by separators nor with a bracketed tag,
the filename normalizer is idempotent. -/
theorem clean_filename_idempotent_cond (x : String)
    (hext : splitextRootList x.data = x.data)
    (h2 : stripLeadNum (clean_filename x).data = (clean_filename x).data)
    (h3 : stripBracket (clean_filename x).data = (clean_filename x).data) :
    clean_filename (clean_filename x) = clean_filename x := by
  have hdata : (clean_filename x).data = cleanList x.data := rfl
  rw [hdata] at h2 h3
  show String.mk (cleanList (clean_filename x).data) = clean_filename x
  rw [hdata, cleanList_fix x.data h2 h3]
  rfl

theorem clean_filename_idempotent_cond_witness :
    clean_filename (clean_filename "already clean") = clean_filename "already clean" :=
  clean_filename_idempotent_cond "already clean" (by decide) (by decide) (by decide)

/-- C6 counterexample: the extension-free name "1 2 3" cleans to
"2 3", which cleans again to "3" — the normalizer is not idempotent. -/
theorem clean_filename_idempotent_counterexample :
    splitextRootList ("1 2 3" : String).data = ("1 2 3" : String).data ∧
    clean_filename "1 2 3" = "2 3" ∧
    clean_filename (clean_filename "1 2 3") = "3" ∧
    clean_filename (clean_filename "1 2 3") ≠ clean_filename "1 2 3" := by
  refine ⟨by decide, by decide, by decide, by decide⟩
